import Mathlib

/-!
Verification of the order-extraction pipeline in `src/app.py`
(`decode_content`, `extract_orders`, `extract_data`, `to_csv_bytes`).

The Python program is shallowly embedded: JSON values become the inductive
type `Json`; Python dictionary access, truthiness, `in` tests, iteration and
the `== 0` comparison are modelled by explicit executable functions that
follow Python's semantics at the call sites used by the program; code that
can raise an exception is modelled with `Except`, the caught state being the
state at the raise point.  The standard-library primitives `json.loads`,
`base64.b64decode` and `bytes.decode` are abstracted into a `PyLib`
parameter: the theorems quantify over every implementation of these
primitives, and the concrete witnesses instantiate them.
-/

namespace OrderExtractor

/-- JSON values, as produced by `json.loads`: `null`/`None`, booleans,
integer numbers, strings, arrays (Python lists) and objects (Python dicts,
represented as association lists in insertion order). -/
inductive Json where
  | null : Json
  | bool (b : Bool) : Json
  | num (n : Int) : Json
  | str (s : String) : Json
  | arr (elems : List Json) : Json
  | obj (fields : List (String × Json)) : Json

/-- Python `d[k]`-style lookup in a dict: first binding of the key, `none`
when the key is missing (Python `dict.get` with no default returns `None`). -/
def dictGet (kvs : List (String × Json)) (k : String) : Option Json :=
  match kvs with
  | [] => none
  | (k', v) :: rest => if k' = k then some v else dictGet rest k

/-- Python `d.get(k, dflt)` on a dict represented as an association list. -/
def getD (kvs : List (String × Json)) (k : String) (dflt : Json) : Json :=
  (dictGet kvs k).getD dflt

/-- Python truthiness of a JSON value: `None`, `False`, `0`, `''`, `[]` and
`{}` are falsy, everything else is truthy. -/
def pyTruthy : Json → Bool
  | Json.null => false
  | Json.bool b => b
  | Json.num n => n != 0
  | Json.str s => s ≠ ""
  | Json.arr elems => !elems.isEmpty
  | Json.obj fields => !fields.isEmpty

/-- Python truthiness of an optional JSON value (`None` is falsy). -/
def pyTruthyOpt : Option Json → Bool
  | none => false
  | some j => pyTruthy j

/-- The Python test `v == 0` for `v` the result of `data.get('code')`:
`None` (missing key) is not equal to `0`; the int `0` is; and — because
`bool` is a subclass of `int` in Python — `False == 0` also holds.  All
other JSON values compare unequal to `0`. -/
def pyEqInt0 : Option Json → Bool
  | some (Json.num n) => n == 0
  | some (Json.bool b) => b == false
  | _ => false

/-- Python `x.get(k, dflt)` where `x` is an arbitrary value: succeeds when
`x` is a dict, raises `AttributeError` (modelled as `Except.error ()`)
otherwise. -/
def pyGetE (j : Json) (k : String) (dflt : Json) : Except Unit Json :=
  match j with
  | Json.obj kvs => Except.ok (getD kvs k dflt)
  | _ => Except.error ()

/-- Python `x[k]` subscripting with a string key: succeeds only when `x` is a
dict holding the key; raises (`TypeError`/`KeyError`) otherwise. -/
def pySubscript (j : Json) (k : String) : Except Unit Json :=
  match j with
  | Json.obj kvs =>
    match dictGet kvs k with
    | some v => Except.ok v
    | none => Except.error ()
  | _ => Except.error ()

/-- Python `for x in v`: a list yields its elements, a string yields its
characters as one-character strings, a dict yields its keys, and every other
value raises `TypeError` (modelled as `Except.error ()`). -/
def pyIter : Json → Except Unit (List Json)
  | Json.arr elems => Except.ok elems
  | Json.str s => Except.ok (s.data.map fun c => Json.str (String.mk [c]))
  | Json.obj kvs => Except.ok (kvs.map fun kv => Json.str kv.1)
  | _ => Except.error ()

/-- Whether the character list `needle` starts the character list `hay`. -/
def leadsWith : List Char → List Char → Bool
  | [], _ => true
  | _ :: _, [] => false
  | c :: cs, d :: ds => c = d && leadsWith cs ds

/-- Auxiliary scanner for substring containment. -/
def strContainsAux (needle : List Char) : List Char → Bool
  | [] => leadsWith needle []
  | c :: cs => leadsWith needle (c :: cs) || strContainsAux needle cs

/-- Python `needle in hay` for strings: substring containment. -/
def strContains (hay needle : String) : Bool :=
  strContainsAux needle.data hay.data

/-- Python `s.lower()`, character-wise (the MIME strings involved are
ASCII). -/
def strLower (s : String) : String := String.mk (s.data.map Char.toLower)

/-- Python `s.startswith(p)`. -/
def strStartsWith (s p : String) : Bool := leadsWith p.data s.data

/-- Python `needle in v` for a string `needle`: key membership for dicts,
element membership for lists (element equality with a string only holds for
that very string), substring test for strings, `TypeError` otherwise. -/
def pyInE (needle : String) (j : Json) : Except Unit Bool :=
  match j with
  | Json.obj kvs => Except.ok (kvs.any fun kv => kv.1 = needle)
  | Json.arr elems =>
    Except.ok (elems.any fun x =>
      match x with
      | Json.str s => s = needle
      | _ => false)
  | Json.str s => Except.ok (strContains s needle)
  | _ => Except.error ()

/-- Whether an 11-character mobile-number match of the regular expression
`1[3-9]\d{9}` starts at the head of the character list (`\d` taken as the
decimal digits `0`-`9`). -/
def phoneHere (cs : List Char) : Bool :=
  match cs with
  | c1 :: c2 :: rest =>
    c1 = '1' && ('3' ≤ c2 && c2 ≤ '9') && decide (9 ≤ rest.length) &&
      (rest.take 9).all Char.isDigit
  | _ => false

/-- Leftmost match: scan every start position in order, as `re.search` does
for this fixed-length pattern. -/
def reSearchPhone : List Char → Option String
  | [] => none
  | c :: cs =>
    if phoneHere (c :: cs) then some (String.mk ((c :: cs).take 11))
    else reSearchPhone cs

/-- `re.search(r'(1[3-9]\d{9})', s)` returning `match.group(1)`:
the leftmost match of the 11-digit mobile pattern, if any. -/
def re_search (s : String) : Option String :=
  reSearchPhone s.data

/-- The phone-source tally `{'recharge_data': _, 'buyer_phone': _,
'nickname': _}` of `extract_orders` / `extract_data`. -/
structure Tally where
  recharge_data : Nat
  buyer_phone : Nat
  nickname : Nat
deriving DecidableEq, Repr

/-- The initial all-zero tally. -/
def zeroTally : Tally := ⟨0, 0, 0⟩

/-- `phone_sources['recharge_data'] += 1` (app.py line 94). -/
def incRecharge (t : Tally) : Tally := { t with recharge_data := t.recharge_data + 1 }

/-- `phone_sources['buyer_phone'] += 1` (app.py line 99). -/
def incBuyer (t : Tally) : Tally := { t with buyer_phone := t.buyer_phone + 1 }

/-- `phone_sources['nickname'] += 1` (app.py line 106). -/
def incNickname (t : Tally) : Tally := { t with nickname := t.nickname + 1 }

/-- Pointwise sum, modelling the `total_phone_sources[k] += v` loop of
`extract_data` (app.py lines 156-157). -/
def addTally (a b : Tally) : Tally :=
  ⟨a.recharge_data + b.recharge_data, a.buyer_phone + b.buyer_phone,
    a.nickname + b.nickname⟩

/-- One extracted order record (app.py lines 108-113): the dict
`{'Order ID': …, 'Buyer Nickname': …, 'Status': …, '手机号': …}`.  The field
values are JSON values because malformed payloads can put non-string data
there. -/
structure Record where
  orderId : Json
  buyerNickname : Json
  status : Json
  phone : Json

/-- Phone-resolution priority 1 (app.py lines 86-94): if the recharge
content is truthy, search it for the mobile pattern — raising `TypeError`
when it is a truthy non-string, since `re.search` requires a string. -/
def phase1 (t : Tally) (content : Json) : Except Tally (Json × Tally) :=
  if pyTruthy content then
    match content with
    | Json.str s =>
      match re_search s with
      | some p => Except.ok (Json.str p, incRecharge t)
      | none => Except.ok (Json.str "", t)
    | _ => Except.error t
  else Except.ok (Json.str "", t)

/-- Phone-resolution priority 2 (app.py lines 96-99): if no phone yet, take
`buyer_info.get('phone', '')` verbatim (raising when `buyer_info` is not a
dict) and tally it when truthy. -/
def phase2 (t : Tally) (phone : Json) (buyer_info : Json) :
    Except Tally (Json × Tally) :=
  if pyTruthy phone then Except.ok (phone, t)
  else
    match pyGetE buyer_info "phone" (Json.str "") with
    | Except.error _ => Except.error t
    | Except.ok bp =>
      if pyTruthy bp then Except.ok (bp, incBuyer t) else Except.ok (bp, t)

/-- Phone-resolution priority 3 (app.py lines 101-106): if still no phone,
search the nickname for the mobile pattern (raising when the nickname is not
a string, since `re.search` has no truthiness guard there). -/
def phase3 (t : Tally) (phone : Json) (buyer_info : Json) :
    Except Tally (Json × Tally) :=
  if pyTruthy phone then Except.ok (phone, t)
  else
    match pyGetE buyer_info "nickName" (Json.str "") with
    | Except.error _ => Except.error t
    | Except.ok nick =>
      match nick with
      | Json.str s =>
        match re_search s with
        | some p => Except.ok (Json.str p, incNickname t)
        | none => Except.ok (phone, t)
      | _ => Except.error t

/-- Building the order dict (app.py lines 108-113), in Python's evaluation
order; each `.get` raises when its receiver is not a dict. -/
def buildRecord (t : Tally) (common_info buyer_info phone : Json) :
    Except Tally Record :=
  match pyGetE common_info "orderId" (Json.str "") with
  | Except.error _ => Except.error t
  | Except.ok oid =>
    match pyGetE buyer_info "nickName" (Json.str "") with
    | Except.error _ => Except.error t
    | Except.ok bnick =>
      match pyGetE common_info "statusStr" (Json.str "") with
      | Except.error _ => Except.error t
      | Except.ok stat => Except.ok ⟨oid, bnick, stat, phone⟩

/-- One iteration of the `for order in order_list` body (app.py lines
78-114).  `Except.ok (none, t)` is the `continue` for a non-dict entry;
`Except.error t'` is an uncaught exception escaping the loop body with the
tally as already mutated in place at the raise point. -/
def processOrder (t : Tally) (order : Json) : Except Tally (Option Record × Tally) :=
  match order with
  | Json.obj kvs =>
    let buyer_info := getD kvs "buyerInfo" (Json.obj [])
    let common_info := getD kvs "commonInfo" (Json.obj [])
    let accept_info := getD kvs "acceptInfo" (Json.obj [])
    match pyGetE accept_info "rechargeData" (Json.obj []) with
    | Except.error _ => Except.error t
    | Except.ok recharge_data =>
      match pyGetE recharge_data "content" (Json.str "") with
      | Except.error _ => Except.error t
      | Except.ok content =>
        match phase1 t content with
        | Except.error t1 => Except.error t1
        | Except.ok (phone1, t1) =>
          match phase2 t1 phone1 buyer_info with
          | Except.error t2 => Except.error t2
          | Except.ok (phone2, t2) =>
            match phase3 t2 phone2 buyer_info with
            | Except.error t3 => Except.error t3
            | Except.ok (phone3, t3) =>
              match buildRecord t3 common_info buyer_info phone3 with
              | Except.error t4 => Except.error t4
              | Except.ok r => Except.ok (some r, t3)
  | _ => Except.ok (none, t)

/-- The `for order in order_list` loop of `extract_orders` under the
enclosing `try` (app.py lines 78-118): the first uncaught exception stops
the loop and the function returns the records appended so far together with
the tally at the raise point. -/
def runOrders (orders : List Record) (t : Tally) : List Json → List Record × Tally
  | [] => (orders, t)
  | o :: os =>
    match processOrder t o with
    | Except.ok (some r, t') => runOrders (orders ++ [r]) t' os
    | Except.ok (none, t') => runOrders orders t' os
    | Except.error t' => (orders, t')

/-- The exception-free run of the same loop: `some` final state exactly when
every entry of the list processes without raising. -/
def runOrdersOk (orders : List Record) (t : Tally) :
    List Json → Option (List Record × Tally)
  | [] => some (orders, t)
  | o :: os =>
    match processOrder t o with
    | Except.ok (some r, t') => runOrdersOk (orders ++ [r]) t' os
    | Except.ok (none, t') => runOrdersOk orders t' os
    | Except.error _ => none

/-- `extract_orders` (app.py lines 66-120): reject non-dict payloads and
payloads whose `code` compares unequal to `0`; otherwise iterate the order
list (a `TypeError` at the `for` itself is caught with nothing collected). -/
def extract_orders (data : Json) : List Record × Tally :=
  match data with
  | Json.obj kvs =>
    if pyEqInt0 (dictGet kvs "code") then
      match pyIter (getD kvs "orderList" (Json.arr [])) with
      | Except.ok orderEntries => runOrders [] zeroTally orderEntries
      | Except.error _ => ([], zeroTally)
    else ([], zeroTally)
  | _ => ([], zeroTally)

/-- The input of `decode_content`: either a value coming from a parsed JSON
document (in `extract_data` this is `content.get('text', '')`), or raw
Python bytes. -/
inductive PyContent where
  | ofJson (j : Json) : PyContent
  | raw (b : List Nat) : PyContent

/-- Python truthiness of a `decode_content` argument (empty bytes are
falsy). -/
def contentTruthy : PyContent → Bool
  | PyContent.ofJson j => pyTruthy j
  | PyContent.raw b => !b.isEmpty

/-- The standard-library primitives used by `decode_content`, abstracted:
`jsonLoads` models `json.loads` on a string (`none` = `JSONDecodeError`),
`b64decode` models `base64.b64decode(·, validate=False)` (`none` = raised),
and `decodeBytes enc b` models `bytes.decode(enc, errors='strict')`
(`none` = `UnicodeDecodeError`). -/
structure PyLib where
  jsonLoads : String → Option Json
  b64decode : String → Option (List Nat)
  decodeBytes : String → List Nat → Option String

/-- The fixed encoding priority list of `decode_content` (app.py line 33). -/
def encodings : List String := ["utf-8", "latin1", "cp1252", "ascii"]

/-- The per-encoding decode-then-parse loop shared by the base64 branch
(app.py lines 39-47) and the raw-bytes branch (lines 53-61): first encoding
that strictly decodes the bytes and whose text parses as JSON wins. -/
def tryEncodings (lib : PyLib) (b : List Nat) : List String → Option Json
  | [] => none
  | e :: es =>
    match lib.decodeBytes e b with
    | some text =>
      match lib.jsonLoads text with
      | some v => some v
      | none => tryEncodings lib b es
    | none => tryEncodings lib b es

/-- `decode_content` (app.py lines 16-63).  A falsy argument returns `None`
at once.  A string is parsed directly as JSON; on failure it is stripped and
re-parsed when wrapped in braces; on failure again the (stripped) string is
base64-decoded and each candidate encoding is tried.  Raw bytes go straight
to the per-encoding loop.  Any other value falls through to `None`. -/
def decode_content (lib : PyLib) (content : PyContent) : Option Json :=
  if contentTruthy content then
    match content with
    | PyContent.ofJson (Json.str s) =>
      match lib.jsonLoads s with
      | some v => some v
      | none =>
        let s2 := s.trim
        match
          (if s2.startsWith "\x7b" && s2.endsWith "\x7d" then lib.jsonLoads s2
           else none) with
        | some v => some v
        | none =>
          match lib.b64decode s2 with
          | some decoded => tryEncodings lib decoded encodings
          | none => none
    | PyContent.ofJson _ => none
    | PyContent.raw b => tryEncodings lib b encodings
  else none

/-- The body of the per-entry `try` of `extract_data` (app.py lines
133-161): `none` when the entry is skipped (filter miss, undecodable or
falsy payload, zero extracted orders) or when an exception is caught by the
`except … continue`; otherwise the records and tally the entry
contributes. -/
def harEntryContribution (lib : PyLib) (entry : Json) :
    Option (List Record × Tally) :=
  match pyGetE entry "request" (Json.obj []) with
  | Except.error _ => none
  | Except.ok request =>
    match pyGetE request "url" (Json.str "") with
    | Except.error _ => none
    | Except.ok url =>
      match pyInE "orderSearch" url with
      | Except.error _ => none
      | Except.ok b =>
        if b then
          match pyGetE entry "response" (Json.obj []) with
          | Except.error _ => none
          | Except.ok response =>
            match pyGetE response "content" (Json.obj []) with
            | Except.error _ => none
            | Except.ok content =>
              if pyTruthy content then
                match content with
                | Json.obj ckvs =>
                  if pyTruthyOpt (dictGet ckvs "text") then
                    match getD ckvs "mimeType" (Json.str "unknown") with
                    | Json.str m =>
                      if strStartsWith (strLower m) "application/json" then
                        match
                          decode_content lib
                            (PyContent.ofJson (getD ckvs "text" (Json.str ""))) with
                        | some d =>
                          if pyTruthy d then
                            match extract_orders d with
                            | ([], _) => none
                            | (r :: os2, t2) => some (r :: os2, t2)
                          else none
                        | none => none
                      else none
                    | _ => none
                  else none
                | _ => none
              else none
        else none

/-- Folding one HAR entry into the accumulated state (app.py lines 153-157):
records are appended and the tally added only when the entry contributed. -/
def processHarEntry (lib : PyLib) (st : List Record × Tally) (entry : Json) :
    List Record × Tally :=
  match harEntryContribution lib entry with
  | none => st
  | some (os, t) => (st.1 ++ os, addTally st.2 t)

/-- `extract_data` (app.py lines 123-163).  The top-level guard and the
subscripting `har_data['log']['entries']` are outside any `try`, so a
`TypeError` there propagates to the caller (`Except.error ()`); the
per-entry loop body is fully caught. -/
def extract_data (lib : PyLib) (har_data : Json) :
    Except Unit (List Record × Tally) :=
  if pyTruthy har_data then
    match pyInE "log" har_data with
    | Except.error _ => Except.error ()
    | Except.ok false => Except.ok ([], zeroTally)
    | Except.ok true =>
      match pySubscript har_data "log" with
      | Except.error _ => Except.error ()
      | Except.ok logv =>
        match pyInE "entries" logv with
        | Except.error _ => Except.error ()
        | Except.ok false => Except.ok ([], zeroTally)
        | Except.ok true =>
          match pySubscript logv "entries" with
          | Except.error _ => Except.error ()
          | Except.ok entriesJson =>
            match pyIter entriesJson with
            | Except.error _ => Except.error ()
            | Except.ok entries =>
              Except.ok (entries.foldl (processHarEntry lib) ([], zeroTally))
  else Except.ok ([], zeroTally)

/-- An order record with the four text fields, as serialized by
`to_csv_bytes` (the claims under verification concern records whose field
values are strings; `csv.DictWriter` writes string values verbatim). -/
structure CsvRow where
  orderId : String
  buyerNickname : String
  status : String
  phone : String

/-- The zero-width space U+200B prefixed to the Order ID (app.py line 190). -/
def zwspChar : Char := '\u200B'

/-- The zero-width marker as a one-character string. -/
def stringZwsp : String := String.mk [zwspChar]

/-- The UTF-8 byte-order-mark code point: `encode('utf-8-sig')` produces the
bytes `EF BB BF` followed by the UTF-8 encoding of the text, and `EF BB BF`
is exactly the UTF-8 encoding of U+FEFF — so utf-8-sig output is modelled
as the string with this character prefixed. -/
def bomChar : Char := '\uFEFF'

/-- `csv` quoting with `doublequote=True`: every `'"'` inside a field is
doubled. -/
def escapeQ : List Char → List Char
  | [] => []
  | c :: cs => if c = '"' then '"' :: '"' :: escapeQ cs else c :: escapeQ cs

/-- `QUOTE_ALL`: a field is always wrapped in double quotes. -/
def quoteF (f : List Char) : List Char :=
  '"' :: (escapeQ f ++ ['"'])

/-- The comma-separated quoted fields of one row (first field separated out
so the row is provably nonempty). -/
def renderFieldsAux : List Char → List (List Char) → List Char
  | f, [] => quoteF f
  | f, g :: gs => quoteF f ++ ',' :: renderFieldsAux g gs

/-- One CSV row with the writer's default `'\r\n'` terminator. -/
def renderRow : List (List Char) → List Char
  | [] => ['\r', '\n']
  | f :: fs => renderFieldsAux f fs ++ ['\r', '\n']

/-- Concatenation of rendered rows. -/
def renderRows : List (List (List Char)) → List Char
  | [] => []
  | r :: rs => renderRow r ++ renderRows rs

/-- The fixed header `field_order` (app.py line 193). -/
def headerFields : List String := ["Order ID", "Buyer Nickname", "Status", "手机号"]

/-- The four field values of one serialized record, in the fixed column
order, with the zero-width marker prefixed to the Order ID. -/
def safeFields (r : CsvRow) : List (List Char) :=
  [zwspChar :: r.orderId.data, r.buyerNickname.data, r.status.data, r.phone.data]

/-- `to_csv_bytes` (app.py lines 181-198), modelled at text level: the
returned string's UTF-8 encoding is the byte output (`bomChar` standing for
the utf-8-sig signature).  Empty input yields empty output; otherwise a
quoted header row followed by one quoted row per record, each Order ID
prefixed with the zero-width marker. -/
def to_csv_bytes (rows : List CsvRow) : String :=
  if rows.isEmpty then ""
  else
    String.mk (bomChar ::
      (renderRow (headerFields.map String.data) ++
        renderRows (rows.map safeFields)))

/-- CSV parser for the quote-all dialect, field scanner: consumes characters
after an opening quote up to the closing quote, undoubling `""` pairs;
returns the field content and the remaining input. -/
def parseQField : List Char → List Char → Option (List Char × List Char)
  | _, [] => none
  | acc, c :: rest =>
    if c = '"' then
      match rest with
      | d :: rest2 =>
        if d = '"' then parseQField (acc ++ ['"']) rest2 else some (acc, d :: rest2)
      | [] => some (acc, [])
    else parseQField (acc ++ [c]) rest

/-- One quoted field: requires the opening quote. -/
def parseField : List Char → Option (List Char × List Char)
  | [] => none
  | c :: rest => if c = '"' then parseQField [] rest else none

/-- One CSV row: quoted fields separated by commas and closed by `'\r\n'`.
The fuel bounds the number of fields. -/
def parseRecAux : Nat → List (List Char) → List Char →
    Option (List (List Char) × List Char)
  | 0, _, _ => none
  | fuel + 1, accF, s =>
    match parseField s with
    | none => none
    | some (f, rest) =>
      match rest with
      | c :: rest2 =>
        if c = ',' then parseRecAux fuel (accF ++ [f]) rest2
        else
          match rest2 with
          | d :: rest3 =>
            if c = '\r' ∧ d = '\n' then some (accF ++ [f], rest3) else none
          | [] => none
      | [] => none

/-- All CSV rows of the input; the fuel bounds the number of rows. -/
def parseRowsAux : Nat → List Char → Option (List (List (List Char)))
  | fuel, s =>
    if s = [] then some []
    else
      match fuel with
      | 0 => none
      | fuel + 1 =>
        match parseRecAux s.length [] s with
        | none => none
        | some (row, rest) =>
          match parseRowsAux fuel rest with
          | none => none
          | some rows => some (row :: rows)

/-- Parse a string as quote-all CSV into rows of field strings. -/
def parseCsv (s : String) : Option (List (List String)) :=
  (parseRowsAux s.data.length s.data).map fun rows =>
    rows.map fun row => row.map String.mk

/-- Drop the utf-8-sig signature when present. -/
def stripBom (s : String) : String :=
  match s.data with
  | c :: cs => if c = bomChar then String.mk cs else s
  | [] => s

/-- Strip the zero-width marker from the head of a field, as a consumer of
the Order ID column must. -/
def stripMarker (s : String) : String :=
  match s.data with
  | c :: cs => if c = zwspChar then String.mk cs else s
  | [] => s

/-- Whether a JSON value is an object (Python mapping). -/
def Json.isObj : Json → Bool
  | Json.obj _ => true
  | _ => false

/-! ### C8: empty input to the serializer -/

/-- C8: for the empty list of order records, `to_csv_bytes` returns a
zero-length byte string — not a header-only table. -/
theorem to_csv_bytes_empty : to_csv_bytes [] = "" := rfl

/-! ### C2: the status-code gate

The claim fails on the code as stated: Python's `data.get('code') != 0`
compares with `bool` as a subclass of `int`, so a payload whose `code` is
the boolean `false` — which is not the integer zero — is processed anyway.
-/

/-- The fields of a payload whose `code` is the JSON boolean `false` and
whose order list holds one well-formed order. -/
def cexCodeFalseFields : List (String × Json) :=
  [("code", Json.bool false),
   ("orderList", Json.arr [Json.obj
     [("commonInfo", Json.obj [("orderId", Json.str "123"), ("statusStr", Json.str "Done")]),
      ("buyerInfo", Json.obj [("nickName", Json.str "Alice")])]])]

/-- C2 counterexample: a decoded payload that is a mapping whose `code`
field is the boolean `false` — not the integer zero — for which
`extract_orders` nevertheless produces one order record, refuting the claim
that every such payload yields zero records. -/
theorem code_false_cex :
    dictGet cexCodeFalseFields "code" = some (Json.bool false) ∧
    Json.bool false ≠ Json.num 0 ∧
    (extract_orders (Json.obj cexCodeFalseFields)).1.length = 1 :=
  ⟨rfl, fun h => Json.noConfusion h, rfl⟩

/-- C2 amended: for every decoded payload that is a mapping, if its `code`
field fails Python's `== 0` test (`pyEqInt0`) — i.e. it is missing or is any
value other than the integer `0` or the boolean `false`, booleans being
numeric in Python — then `extract_orders` returns zero order records and the
all-zero tally. -/
theorem extract_orders_code_nonzero (kvs : List (String × Json))
    (h : pyEqInt0 (dictGet kvs "code") = false) :
    extract_orders (Json.obj kvs) = ([], zeroTally) := by
  simp [extract_orders, h]

/-- Witness for the amended C2 theorem at the concrete payload
`{'code': 1}`. -/
theorem extract_orders_code_nonzero_witness :
    extract_orders (Json.obj [("code", Json.num 1)]) = ([], zeroTally) :=
  extract_orders_code_nonzero [("code", Json.num 1)] rfl

/-! ### C3: malformed order entries

Non-mapping *elements* of the order list are indeed skipped individually
(`continue` at app.py line 80).  But an entry with a non-mapping
`buyerInfo`/`commonInfo`/`acceptInfo`/`rechargeData` sub-field raises
`AttributeError` inside the loop body, and the only handler is the
payload-level `try`: the rest of the payload's entries are lost, refuting
the claim that every other entry still produces its record.
-/

/-- An order entry whose `buyerInfo` sub-field is a number, not a mapping. -/
def badOrderC3 : Json := Json.obj [("buyerInfo", Json.num 5)]

/-- A well-formed order entry. -/
def goodOrderC3 : Json :=
  Json.obj
    [("commonInfo", Json.obj [("orderId", Json.str "123"), ("statusStr", Json.str "Done")]),
     ("buyerInfo", Json.obj [("nickName", Json.str "Alice")])]

/-- C3 counterexample: in a `code = 0` payload whose order list is
`[badOrderC3, goodOrderC3]`, the non-mapping `buyerInfo` of the first entry
aborts the whole payload — `extract_orders` returns no records at all — even
though the second entry on its own yields a record.  This refutes the claim
that an entry with unexpected nesting is skipped individually. -/
theorem malformed_subfield_cex :
    extract_orders (Json.obj [("code", Json.num 0),
      ("orderList", Json.arr [badOrderC3, goodOrderC3])]) = ([], zeroTally) ∧
    (extract_orders (Json.obj [("code", Json.num 0),
      ("orderList", Json.arr [goodOrderC3])])).1.length = 1 :=
  ⟨rfl, rfl⟩

/-- C3 amended: a non-mapping element of the order list is skipped
individually and does not disturb the processing of the remaining entries;
but an entry whose processing raises (e.g. a non-mapping sub-field) stops
the loop, and the payload's extraction returns the records collected before
it together with the tally at the raise point. -/
theorem malformed_entries_amended :
    (∀ (orders : List Record) (t : Tally) (j : Json) (os : List Json),
      j.isObj = false → runOrders orders t (j :: os) = runOrders orders t os) ∧
    (∀ (orders : List Record) (t : Tally) (o : Json) (os : List Json) (t' : Tally),
      processOrder t o = Except.error t' → runOrders orders t (o :: os) = (orders, t')) := by
  constructor
  · intro orders t j os h
    cases j <;> first
      | rfl
      | (exfalso; simp [Json.isObj] at h)
  · intro orders t o os t' h
    simp only [runOrders, h]

/-- Witness for the amended C3 theorem: the non-mapping element `5` is
skipped transparently, and the entry with a non-mapping `buyerInfo` stops
the loop with the records collected so far (none). -/
theorem malformed_entries_amended_witness :
    runOrders [] zeroTally [Json.num 5, goodOrderC3] =
      runOrders [] zeroTally [goodOrderC3] ∧
    runOrders [] zeroTally [badOrderC3, goodOrderC3] = ([], zeroTally) :=
  ⟨malformed_entries_amended.1 [] zeroTally (Json.num 5) [goodOrderC3] rfl,
   malformed_entries_amended.2 [] zeroTally badOrderC3 [goodOrderC3] zeroTally rfl⟩

/-! ### C5: direct-JSON precedence in the decoder -/

/-- C5: for every implementation of the JSON/base64 primitives under which
the empty string is not valid JSON (as with `json.loads`), and for every
string body that parses directly as JSON, `decode_content` returns that
direct parse.  The base64 primitives are universally quantified, so the
result cannot depend on the base64 branch even when the body is also valid
base64 whose decoding would parse as JSON. -/
theorem decode_content_direct_json (lib : PyLib) (s : String) (v : Json)
    (hempty : lib.jsonLoads "" = none) (h : lib.jsonLoads s = some v) :
    decode_content lib (PyContent.ofJson (Json.str s)) = some v := by
  have hs : s ≠ "" := by
    intro e
    rw [e, hempty] at h
    cases h
  simp [decode_content, contentTruthy, pyTruthy, hs, h]

/-- A concrete primitive library under which `"[]"` parses directly as the
empty array, and is *also* valid base64 whose decoded bytes would parse as
the number `7`. -/
def libC5 : PyLib where
  jsonLoads := fun s =>
    if s = "[]" then some (Json.arr [])
    else if s = "7" then some (Json.num 7) else none
  b64decode := fun s => if s = "[]" then some [55] else none
  decodeBytes := fun _ b => if b = [55] then some "7" else none

/-- Witness for C5: under `libC5` the body `"[]"` resolves via the direct
JSON path to the empty array, not to the value `7` the base64 branch would
have produced. -/
theorem decode_content_direct_json_witness :
    decode_content libC5 (PyContent.ofJson (Json.str "[]")) = some (Json.arr []) :=
  decode_content_direct_json libC5 "[]" (Json.arr []) rfl rfl

/-! ### C1: the phone-resolution priority chain -/

/-- A successful pattern match is an 11-character string, so never empty. -/
theorem reSearchPhone_ne_empty (cs : List Char) (p : String)
    (h : reSearchPhone cs = some p) : p ≠ "" := by
  induction cs with
  | nil => cases h
  | cons c cs ih =>
    by_cases hp : phoneHere (c :: cs)
    · rw [reSearchPhone, if_pos hp] at h
      injection h with h
      subst h
      intro e
      have h2 := congrArg String.data e
      simp [List.take] at h2
    · rw [reSearchPhone, if_neg hp] at h
      exact ih h

/-- A successful `re_search` result is never the empty string. -/
theorem re_search_ne_empty (s : String) (p : String)
    (h : re_search s = some p) : p ≠ "" :=
  reSearchPhone_ne_empty s.data p h

/-- Priority 1 on a string content: search it when nonempty (the empty
string is falsy and has no match anyway, so both paths agree with a plain
match on `re_search`). -/
theorem phase1_str (t : Tally) (c : String) :
    phase1 t (Json.str c) =
      match re_search c with
      | some p => Except.ok (Json.str p, incRecharge t)
      | none => Except.ok (Json.str "", t) := by
  by_cases hc : c = ""
  · subst hc; rfl
  · simp only [phase1, pyTruthy]
    rw [if_pos (by simpa using hc)]

/-- Modelled from the claim's wording: the strict priority chain — first
match in the recharge content, else the buyer phone field verbatim if
non-empty, else the first match in the nickname, else the empty string. -/
def specPhone (content bphone nick : String) : String :=
  match re_search content with
  | some p => p
  | none =>
    if bphone ≠ "" then bphone
    else
      match re_search nick with
      | some p => p
      | none => ""

/-- C1: for every order entry that is a mapping and whose relevant fields
are text (the recharge content reachable without a type error and a string,
the buyer info a mapping with string `phone` and `nickName`, the common info
a mapping), processing the entry succeeds and the extracted phone is exactly
the claim's strict priority chain `specPhone`: first match in
`acceptInfo.rechargeData.content`, else the non-empty buyer phone verbatim,
else the first match in the nickname, else the empty string.  In particular
priority 1 wins over priority 2 whenever both would produce a value, and
priority 3 fires when 1 and 2 produce nothing. -/
theorem phone_priority_chain (t : Tally) (kvs bkvs ckvs : List (String × Json))
    (rd : Json) (c bp nk : String)
    (h1 : pyGetE (getD kvs "acceptInfo" (Json.obj [])) "rechargeData" (Json.obj [])
      = Except.ok rd)
    (h2 : pyGetE rd "content" (Json.str "") = Except.ok (Json.str c))
    (h3 : getD kvs "buyerInfo" (Json.obj []) = Json.obj bkvs)
    (h4 : getD bkvs "phone" (Json.str "") = Json.str bp)
    (h5 : getD bkvs "nickName" (Json.str "") = Json.str nk)
    (h6 : getD kvs "commonInfo" (Json.obj []) = Json.obj ckvs) :
    ∃ (r : Record) (t' : Tally),
      processOrder t (Json.obj kvs) = Except.ok (some r, t') ∧
      r.phone = Json.str (specPhone c bp nk) := by
  simp only [processOrder, h3, h6, h1, h2, phase1_str]
  cases hre : re_search c with
  | some p =>
    have hp : p ≠ "" := re_search_ne_empty c p hre
    simp only [specPhone, hre]
    have hA : phase2 (incRecharge t) (Json.str p) (Json.obj bkvs)
        = Except.ok (Json.str p, incRecharge t) := by
      simp [phase2, pyTruthy, hp]
    have hB : phase3 (incRecharge t) (Json.str p) (Json.obj bkvs)
        = Except.ok (Json.str p, incRecharge t) := by
      simp [phase3, pyTruthy, hp]
    simp only [hA, hB, buildRecord, pyGetE]
    exact ⟨_, _, rfl, rfl⟩
  | none =>
    simp only [specPhone, hre]
    by_cases hbp : bp = ""
    · subst hbp
      have hA : phase2 t (Json.str "") (Json.obj bkvs) = Except.ok (Json.str "", t) := by
        simp [phase2, pyGetE, pyTruthy, h4]
      cases hnk : re_search nk with
      | some p =>
        have hB : phase3 t (Json.str "") (Json.obj bkvs)
            = Except.ok (Json.str p, incNickname t) := by
          simp [phase3, pyGetE, pyTruthy, h5, hnk]
        simp only [hA, hB, buildRecord, pyGetE]
        exact ⟨_, _, rfl, rfl⟩
      | none =>
        have hB : phase3 t (Json.str "") (Json.obj bkvs)
            = Except.ok (Json.str "", t) := by
          simp [phase3, pyGetE, pyTruthy, h5, hnk]
        simp only [hA, hB, buildRecord, pyGetE]
        exact ⟨_, _, rfl, rfl⟩
    · have hA : phase2 t (Json.str "") (Json.obj bkvs)
          = Except.ok (Json.str bp, incBuyer t) := by
        simp [phase2, pyGetE, pyTruthy, h4, hbp]
      have hB : phase3 (incBuyer t) (Json.str bp) (Json.obj bkvs)
          = Except.ok (Json.str bp, incBuyer t) := by
        simp [phase3, pyTruthy, hbp]
      simp only [hA, hB, buildRecord, pyGetE]
      rw [if_pos hbp]
      exact ⟨_, _, rfl, rfl⟩

/-- Witness for C1 at a concrete entry where both the recharge content and
the buyer phone would produce a value: the recharge match wins. -/
theorem phone_priority_chain_witness :
    ∃ (r : Record) (t' : Tally),
      processOrder zeroTally (Json.obj
        [("acceptInfo", Json.obj [("rechargeData", Json.obj
           [("content", Json.str "x13812345678y")])]),
         ("buyerInfo", Json.obj [("phone", Json.str "13900000000"),
           ("nickName", Json.str "bob")]),
         ("commonInfo", Json.obj [("orderId", Json.str "9")])])
        = Except.ok (some r, t') ∧
      r.phone = Json.str "13812345678" := by
  obtain ⟨r, t', hr, hp⟩ :=
    phone_priority_chain zeroTally
      [("acceptInfo", Json.obj [("rechargeData", Json.obj
         [("content", Json.str "x13812345678y")])]),
       ("buyerInfo", Json.obj [("phone", Json.str "13900000000"),
         ("nickName", Json.str "bob")]),
       ("commonInfo", Json.obj [("orderId", Json.str "9")])]
      [("phone", Json.str "13900000000"), ("nickName", Json.str "bob")]
      [("orderId", Json.str "9")]
      (Json.obj [("content", Json.str "x13812345678y")])
      "x13812345678y" "13900000000" "bob" rfl rfl rfl rfl rfl rfl
  exact ⟨r, t', hr, hp.trans rfl⟩

/-! ### C4: fail-soft extraction -/

/-- Decomposition of the caught loop: either every entry processes without
raising and the result is the exception-free run, or the list splits at the
first raising entry and the result is the records collected on the prefix
together with the tally at the raise point. -/
theorem runOrders_decomp (es : List Json) : ∀ (orders : List Record) (t : Tally),
    (∃ st, runOrdersOk orders t es = some st ∧ runOrders orders t es = st) ∨
    (∃ pre o rest stMid t', es = pre ++ o :: rest ∧
      runOrdersOk orders t pre = some stMid ∧
      processOrder stMid.2 o = Except.error t' ∧
      runOrders orders t es = (stMid.1, t')) := by
  induction es with
  | nil =>
    intro orders t
    exact Or.inl ⟨(orders, t), rfl, rfl⟩
  | cons o os ih =>
    intro orders t
    cases hp : processOrder t o with
    | ok p =>
      obtain ⟨ro, t'⟩ := p
      cases ro with
      | some r =>
        rcases ih (orders ++ [r]) t' with ⟨st, ha, hb⟩ |
            ⟨pre, o2, rest, stMid, t2, he, ha, hb, hc⟩
        · exact Or.inl ⟨st, by simp only [runOrdersOk, hp]; exact ha,
            by simp only [runOrders, hp]; exact hb⟩
        · refine Or.inr ⟨o :: pre, o2, rest, stMid, t2, by rw [he]; rfl, ?_, hb, ?_⟩
          · simp only [runOrdersOk, hp]; exact ha
          · simp only [runOrders, hp]; exact hc
      | none =>
        rcases ih orders t' with ⟨st, ha, hb⟩ |
            ⟨pre, o2, rest, stMid, t2, he, ha, hb, hc⟩
        · exact Or.inl ⟨st, by simp only [runOrdersOk, hp]; exact ha,
            by simp only [runOrders, hp]; exact hb⟩
        · refine Or.inr ⟨o :: pre, o2, rest, stMid, t2, by rw [he]; rfl, ?_, hb, ?_⟩
          · simp only [runOrdersOk, hp]; exact ha
          · simp only [runOrders, hp]; exact hc
    | error t' =>
      exact Or.inr ⟨[], o, os, (orders, t), t', rfl, rfl, hp,
        by simp only [runOrders, hp]⟩

/-- C4: `extract_orders` is a total function (so no exception ever reaches
its caller), and its value is always exactly what was collected before the
first raising entry: for a rejected payload the empty result; otherwise
either the exception-free run of the full order list, or — when the list
splits at a raising entry — the records of the successfully processed prefix
together with the tally at the raise point. -/
theorem extract_orders_fail_soft (data : Json) :
    extract_orders data = ([], zeroTally) ∨
    ∃ kvs es, data = Json.obj kvs ∧
      pyIter (getD kvs "orderList" (Json.arr [])) = Except.ok es ∧
      ((∃ st, runOrdersOk [] zeroTally es = some st ∧ extract_orders data = st) ∨
       (∃ pre o rest stMid t', es = pre ++ o :: rest ∧
         runOrdersOk [] zeroTally pre = some stMid ∧
         processOrder stMid.2 o = Except.error t' ∧
         extract_orders data = (stMid.1, t'))) := by
  cases data with
  | obj kvs =>
    by_cases hc : pyEqInt0 (dictGet kvs "code") = true
    · cases hit : pyIter (getD kvs "orderList" (Json.arr [])) with
      | ok es =>
        right
        refine ⟨kvs, es, rfl, hit, ?_⟩
        have hex : extract_orders (Json.obj kvs) = runOrders [] zeroTally es := by
          simp [extract_orders, hc, hit]
        rcases runOrders_decomp es [] zeroTally with ⟨st, ha, hb⟩ |
            ⟨pre, o, rest, stMid, t', he, ha, hb, hcr⟩
        · exact Or.inl ⟨st, ha, hex.trans hb⟩
        · exact Or.inr ⟨pre, o, rest, stMid, t', he, ha, hb, hex.trans hcr⟩
      | error e =>
        left
        simp [extract_orders, hc, hit]
    · left
      have hc' : pyEqInt0 (dictGet kvs "code") = false := by simpa using hc
      simp [extract_orders, hc']
  | null => exact Or.inl rfl
  | bool b => exact Or.inl rfl
  | num n => exact Or.inl rfl
  | str s => exact Or.inl rfl
  | arr l => exact Or.inl rfl

/-! ### C6: the URL marker filter -/

/-- A minimal HAR document holding the given entries. -/
def harOf (es : List Json) : Json :=
  Json.obj [("log", Json.obj [("entries", Json.arr es)])]

/-- On a well-formed HAR wrapper, `extract_data` is the fold of the
per-entry step over the entries. -/
theorem extract_data_harOf (lib : PyLib) (es : List Json) :
    extract_data lib (harOf es) =
      Except.ok (es.foldl (processHarEntry lib) ([], zeroTally)) := rfl

/-- C6: an entry whose request URL does not contain the marker substring
`orderSearch` contributes nothing — the per-entry step leaves the
accumulated state unchanged, and removing the entry from a HAR document does
not change the output of `extract_data` — regardless of what its response
body would decode to. -/
theorem url_filter (lib : PyLib) (entry req : Json) (u : String)
    (h1 : pyGetE entry "request" (Json.obj []) = Except.ok req)
    (h2 : pyGetE req "url" (Json.str "") = Except.ok (Json.str u))
    (h3 : strContains u "orderSearch" = false) :
    (∀ st, processHarEntry lib st entry = st) ∧
    ∀ pre post, extract_data lib (harOf (pre ++ entry :: post)) =
      extract_data lib (harOf (pre ++ post)) := by
  have hskip : ∀ st, processHarEntry lib st entry = st := by
    intro st
    simp [processHarEntry, harEntryContribution, h1, h2, pyInE, h3]
  refine ⟨hskip, ?_⟩
  intro pre post
  simp only [extract_data_harOf, List.foldl_append, List.foldl_cons, hskip]

/-- The payload the blocked witness entry would have decoded to: one
well-formed order. -/
def scenarioPayload : Json :=
  Json.obj [("code", Json.num 0), ("orderList", Json.arr [goodOrderC3])]

/-- A primitive library mapping the body text `"T6"` to a payload holding a
valid order. -/
def libC6 : PyLib where
  jsonLoads := fun s => if s = "T6" then some scenarioPayload else none
  b64decode := fun _ => none
  decodeBytes := fun _ _ => none

/-- A JSON-typed entry whose URL lacks the `orderSearch` marker but whose
body text would decode (under `libC6`) into a payload with a valid order. -/
def entryC6 : Json :=
  Json.obj [("request", Json.obj [("url", Json.str "https://x/api")]),
    ("response", Json.obj [("content", Json.obj
      [("text", Json.str "T6"), ("mimeType", Json.str "application/json")])])]

/-- Witness for C6 at the concrete blocked entry. -/
theorem url_filter_witness :
    processHarEntry libC6 ([], zeroTally) entryC6 = ([], zeroTally) ∧
    extract_data libC6 (harOf [entryC6]) = extract_data libC6 (harOf []) := by
  obtain ⟨ha, hb⟩ := url_filter libC6 entryC6
    (Json.obj [("url", Json.str "https://x/api")]) "https://x/api" rfl rfl rfl
  exact ⟨ha ([], zeroTally), by simpa using hb [] []⟩

/-! ### C9: falsy decoded payloads and empty bodies -/

/-- C9: (a) an exchange that passes every filter but whose body decodes to a
falsy JSON value (empty object/array, `0`, `false`, empty string or `null`)
contributes nothing — `if not data` treats it exactly like a decode failure;
(b) `decode_content` returns the failure signal for a falsy body whatever
the decoding primitives are, i.e. without attempting any decoding. -/
theorem falsy_payload_skipped :
    (∀ (lib : PyLib) (st : List Record × Tally) (entry req url resp : Json)
       (ckvs : List (String × Json)) (m : String) (d : Json),
      pyGetE entry "request" (Json.obj []) = Except.ok req →
      pyGetE req "url" (Json.str "") = Except.ok url →
      pyInE "orderSearch" url = Except.ok true →
      pyGetE entry "response" (Json.obj []) = Except.ok resp →
      pyGetE resp "content" (Json.obj []) = Except.ok (Json.obj ckvs) →
      pyTruthy (Json.obj ckvs) = true →
      pyTruthyOpt (dictGet ckvs "text") = true →
      getD ckvs "mimeType" (Json.str "unknown") = Json.str m →
      strStartsWith (strLower m) "application/json" = true →
      decode_content lib (PyContent.ofJson (getD ckvs "text" (Json.str ""))) = some d →
      pyTruthy d = false →
      processHarEntry lib st entry = st) ∧
    (∀ (lib : PyLib) (c : PyContent), contentTruthy c = false →
      decode_content lib c = none) := by
  constructor
  · intro lib st entry req url resp ckvs m d h1 h2 h3 h4 h5 h6 h7 h8 h9 h10 h11
    simp [processHarEntry, harEntryContribution,
      h1, h2, h3, h4, h5, h6, h7, h8, h9, h10, h11]
  · intro lib c h
    simp [decode_content, h]

/-- A primitive library mapping the body `"E9"` to the empty JSON object. -/
def libC9 : PyLib where
  jsonLoads := fun s => if s = "E9" then some (Json.obj []) else none
  b64decode := fun _ => none
  decodeBytes := fun _ _ => none

/-- An entry passing every filter whose body decodes (under `libC9`) to the
falsy empty object. -/
def entryC9 : Json :=
  Json.obj [("request", Json.obj [("url", Json.str "u/orderSearch?x")]),
    ("response", Json.obj [("content", Json.obj
      [("text", Json.str "E9"), ("mimeType", Json.str "application/json")])])]

/-- Witness for C9: the concrete falsy-decoding entry contributes nothing,
and the empty body returns the failure signal. -/
theorem falsy_payload_skipped_witness :
    processHarEntry libC9 ([], zeroTally) entryC9 = ([], zeroTally) ∧
    decode_content libC9 (PyContent.ofJson (Json.str "")) = none := by
  constructor
  · exact falsy_payload_skipped.1 libC9 ([], zeroTally) entryC9
      (Json.obj [("url", Json.str "u/orderSearch?x")])
      (Json.str "u/orderSearch?x")
      (Json.obj [("content", Json.obj
        [("text", Json.str "E9"), ("mimeType", Json.str "application/json")])])
      [("text", Json.str "E9"), ("mimeType", Json.str "application/json")]
      "application/json" (Json.obj [])
      (by rfl) (by rfl) (by rfl) (by rfl) (by rfl) (by rfl) (by rfl) (by rfl)
      (by rfl) (by rfl) (by rfl)
  · exact falsy_payload_skipped.2 libC9 (PyContent.ofJson (Json.str "")) (by rfl)

/-! ### C10: the tally is merged only alongside a non-empty order list -/

/-- Inversion of a contributing entry: a contribution always comes from a
successfully decoded payload whose extraction produced a non-empty record
list, records and tally from the same `extract_orders` call. -/
theorem harEntryContribution_some (lib : PyLib) (entry : Json)
    (os : List Record) (t : Tally)
    (h : harEntryContribution lib entry = some (os, t)) :
    ∃ c d, decode_content lib c = some d ∧ extract_orders d = (os, t) ∧ os ≠ [] := by
  unfold harEntryContribution at h
  repeat' split at h
  all_goals try cases h
  rename_i x1 v hdec htru x r os2 hext
  exact ⟨_, v, hdec, hext, by simp⟩

/-- The demo payload for C10: its single order increments the recharge tally
and then raises on the non-mapping `commonInfo`, so extraction yields zero
records but a non-zero tally. -/
def demoPayloadC10 : Json :=
  Json.obj [("code", Json.num 0),
    ("orderList", Json.arr [Json.obj
      [("acceptInfo", Json.obj [("rechargeData", Json.obj
         [("content", Json.str "13912345678")])]),
       ("commonInfo", Json.num 1)]])]

/-- A primitive library mapping the body `"T10"` to `demoPayloadC10`. -/
def libC10 : PyLib where
  jsonLoads := fun s => if s = "T10" then some demoPayloadC10 else none
  b64decode := fun _ => none
  decodeBytes := fun _ _ => none

/-- A HAR document with one entry whose body decodes to `demoPayloadC10`. -/
def demoHarC10 : Json :=
  harOf [Json.obj [("request", Json.obj [("url", Json.str "a/orderSearch")]),
    ("response", Json.obj [("content", Json.obj
      [("text", Json.str "T10"), ("mimeType", Json.str "application/json")])])]]

/-- C10: the per-entry step of `extract_data` either leaves the accumulated
state untouched, or appends a non-empty record list and adds the tally of
the very same `extract_orders` call — so a tally is merged only when the
payload produced at least one record.  The closed conjuncts exhibit the
discard: `demoPayloadC10` extracts to zero records with a recharge tally of
one, yet `extract_data` over a HAR delivering it returns the all-zero
tally. -/
theorem tally_added_only_with_orders :
    (∀ (lib : PyLib) (st : List Record × Tally) (entry : Json),
      processHarEntry lib st entry = st ∨
      ∃ c d os t, decode_content lib c = some d ∧ extract_orders d = (os, t) ∧
        os ≠ [] ∧ processHarEntry lib st entry = (st.1 ++ os, addTally st.2 t)) ∧
    extract_orders demoPayloadC10 = ([], ⟨1, 0, 0⟩) ∧
    extract_data libC10 demoHarC10 = Except.ok ([], zeroTally) := by
  refine ⟨?_, rfl, rfl⟩
  intro lib st entry
  cases hc : harEntryContribution lib entry with
  | none => exact Or.inl (by simp [processHarEntry, hc])
  | some p =>
    obtain ⟨os, t⟩ := p
    obtain ⟨c, d, hdec, hext, hne⟩ := harEntryContribution_some lib entry os t hc
    exact Or.inr ⟨c, d, os, t, hdec, hext, hne, by simp [processHarEntry, hc]⟩

/-! ### C7: CSV round trip -/

/-- A string is its character list. -/
theorem strMk_data (s : String) : String.mk s.data = s := by
  cases s
  rfl

/-- Prefixing one character at the string level and at the list level
agree. -/
theorem strMk_cons (c : Char) (s : String) :
    String.mk (c :: s.data) = String.mk [c] ++ s := by
  cases s
  rfl

/-- Scanner step: a doubled quote is undoubled and consumed. -/
theorem parseQField_step_quote (acc rest : List Char) :
    parseQField acc ('"' :: '"' :: rest) = parseQField (acc ++ ['"']) rest := rfl

/-- Scanner step: an unescaped quote closes the field. -/
theorem parseQField_step_close (acc rest : List Char) (d : Char) (hd : d ≠ '"') :
    parseQField acc ('"' :: d :: rest) = some (acc, d :: rest) := by
  simp [parseQField, hd]

/-- Scanner step: an ordinary character is consumed into the field. -/
theorem parseQField_step_other (acc rest : List Char) (c : Char) (hc : c ≠ '"') :
    parseQField acc (c :: rest) = parseQField (acc ++ [c]) rest := by
  cases rest with
  | nil => simp [parseQField, hc]
  | cons d rest => simp [parseQField, hc]

/-- The field scanner undoes the quote-doubling escape: it stops at the
first unescaped quote and returns the original field text. -/
theorem parseQField_escape (f : List Char) :
    ∀ (acc rest : List Char) (c : Char), c ≠ '"' →
      parseQField acc (escapeQ f ++ '"' :: c :: rest) = some (acc ++ f, c :: rest) := by
  induction f with
  | nil =>
    intro acc rest c hc
    simp only [escapeQ, List.nil_append]
    rw [parseQField_step_close acc rest c hc]
    simp
  | cons g f ih =>
    intro acc rest c hc
    by_cases hg : g = '"'
    · subst hg
      have he : escapeQ ('"' :: f) = '"' :: '"' :: escapeQ f := rfl
      rw [he]
      simp only [List.cons_append]
      rw [parseQField_step_quote, ih (acc ++ ['"']) rest c hc]
      simp [List.append_assoc]
    · have he : escapeQ (g :: f) = g :: escapeQ f := by simp [escapeQ, hg]
      rw [he]
      simp only [List.cons_append]
      rw [parseQField_step_other acc _ g hg, ih (acc ++ [g]) rest c hc]
      simp [List.append_assoc]

/-- A quoted field followed by a separator parses back to the field. -/
theorem parseField_quoted (f rest : List Char) (c : Char) (hc : c ≠ '"') :
    parseField (quoteF f ++ c :: rest) = some (f, c :: rest) := by
  have hsh : quoteF f ++ c :: rest = '"' :: (escapeQ f ++ '"' :: c :: rest) := by
    simp [quoteF]
  rw [hsh, parseField]
  simp only [if_pos rfl]
  simpa using parseQField_escape f [] rest c hc

/-- One rendered row followed by the row terminator parses back to its
fields, for any fuel at least the field count. -/
theorem parseRecAux_render (fs : List (List Char)) :
    ∀ (fuel : Nat) (f : List Char) (accF : List (List Char)) (rest : List Char),
      fs.length + 1 ≤ fuel →
      parseRecAux fuel accF (renderFieldsAux f fs ++ '\r' :: '\n' :: rest) =
        some (accF ++ f :: fs, rest) := by
  induction fs with
  | nil =>
    intro fuel f accF rest hfuel
    obtain ⟨k, rfl⟩ : ∃ k, fuel = k + 1 := ⟨fuel - 1, by omega⟩
    simp only [renderFieldsAux]
    rw [parseRecAux, parseField_quoted f ('\n' :: rest) '\r' (by decide)]
    simp

  | cons g gs ih =>
    intro fuel f accF rest hfuel
    obtain ⟨k, rfl⟩ : ∃ k, fuel = k + 1 := ⟨fuel - 1, by omega⟩
    have hk : gs.length + 1 ≤ k := by
      simp only [List.length_cons] at hfuel
      omega
    have hsh : renderFieldsAux f (g :: gs) ++ '\r' :: '\n' :: rest =
        quoteF f ++ ',' :: (renderFieldsAux g gs ++ '\r' :: '\n' :: rest) := by
      simp [renderFieldsAux]
    rw [hsh, parseRecAux, parseField_quoted f _ ',' (by decide)]
    simp only [if_pos rfl]
    rw [ih k g (accF ++ [f]) rest hk]
    simp

/-- A rendered row is at least one field longer than its field count. -/
theorem renderFieldsAux_length (fs : List (List Char)) :
    ∀ f : List Char, fs.length + 1 ≤ (renderFieldsAux f fs).length := by
  induction fs with
  | nil =>
    intro f
    simp [renderFieldsAux, quoteF]
  | cons g gs ih =>
    intro f
    have h1 := ih g
    have h2 : (renderFieldsAux f (g :: gs)).length
        = (quoteF f).length + ((renderFieldsAux g gs).length + 1) := by
      simp [renderFieldsAux]
    have h3 : 2 ≤ (quoteF f).length := by simp [quoteF]
    simp only [List.length_cons]
    omega

/-- Every rendered row is nonempty. -/
theorem renderRow_length_pos (r : List (List Char)) : 1 ≤ (renderRow r).length := by
  cases r with
  | nil => simp [renderRow]
  | cons f fs => simp [renderRow]

/-- The rendered text is at least one character per row. -/
theorem renderRows_length (rs : List (List (List Char))) :
    rs.length ≤ (renderRows rs).length := by
  induction rs with
  | nil => simp [renderRows]
  | cons r rs ih =>
    have := renderRow_length_pos r
    simp only [renderRows, List.length_append, List.length_cons]
    omega

/-- Rendered rows parse back to themselves, for any fuel at least the row
count, provided every row has at least one field. -/
theorem parseRowsAux_render (rows : List (List (List Char))) :
    ∀ fuel, rows.length ≤ fuel → (∀ r ∈ rows, r ≠ []) →
      parseRowsAux fuel (renderRows rows) = some rows := by
  induction rows with
  | nil =>
    intro fuel _ _
    rw [show renderRows [] = ([] : List Char) from rfl, parseRowsAux.eq_def]
    simp
  | cons r rs ih =>
    intro fuel hfuel hne
    simp only [List.length_cons] at hfuel
    obtain ⟨f, fs, rfl⟩ : ∃ f fs, r = f :: fs := by
      cases r with
      | nil => exact absurd rfl (hne [] (by simp))
      | cons f fs => exact ⟨f, fs, rfl⟩
    obtain ⟨k, rfl⟩ : ∃ k, fuel = k + 1 := ⟨fuel - 1, by omega⟩
    have hsh : renderRows ((f :: fs) :: rs) =
        renderFieldsAux f fs ++ '\r' :: '\n' :: renderRows rs := by
      simp [renderRows, renderRow]
    have hnonnil : renderFieldsAux f fs ++ '\r' :: '\n' :: renderRows rs ≠ [] := by
      simp
    have hlen : fs.length + 1 ≤
        (renderFieldsAux f fs ++ '\r' :: '\n' :: renderRows rs).length := by
      have := renderFieldsAux_length fs f
      simp only [List.length_append, List.length_cons]
      omega
    rw [hsh, parseRowsAux.eq_def]
    dsimp only
    rw [if_neg hnonnil]
    rw [parseRecAux_render fs _ f [] (renderRows rs) hlen]
    simp only [List.nil_append]
    simp [ih k (by omega) (fun x hx => hne x (by simp [hx]))]

/-- C7: serializing any list of text-field order records with
`to_csv_bytes` and re-parsing the output as quote-all CSV (after dropping
the utf-8-sig signature) yields exactly the header row followed by one data
row per record, in input order and in the fixed column order, each Order ID
carrying the zero-width marker; and stripping that marker from the first
column recovers the input field values byte-identically. -/
theorem csv_round_trip (rows : List CsvRow) :
    parseCsv (stripBom (to_csv_bytes rows)) =
      some (if rows.isEmpty then []
        else headerFields :: rows.map fun r =>
          [stringZwsp ++ r.orderId, r.buyerNickname, r.status, r.phone]) ∧
    (rows.map fun r => [stringZwsp ++ r.orderId, r.buyerNickname, r.status, r.phone]).map
        (fun l => match l with | f :: rest => stripMarker f :: rest | [] => []) =
      rows.map fun r => [r.orderId, r.buyerNickname, r.status, r.phone] := by
  have hstrip : ∀ s : String, stripMarker (stringZwsp ++ s) = s := by
    intro s
    cases s
    rfl
  have hfield : ∀ q : CsvRow, (safeFields q).map String.mk =
      [stringZwsp ++ q.orderId, q.buyerNickname, q.status, q.phone] := by
    intro q
    simp [safeFields, strMk_data, strMk_cons, stringZwsp]
  constructor
  · cases rows with
    | nil => rfl
    | cons r rs =>
      have hsh : stripBom (to_csv_bytes (r :: rs)) =
          String.mk (renderRows ((headerFields.map String.data) ::
            (r :: rs).map safeFields)) := by
        simp [to_csv_bytes, stripBom, renderRows]
      rw [hsh]
      have hne : ∀ x ∈ (headerFields.map String.data) :: (r :: rs).map safeFields,
          x ≠ [] := by
        intro x hx
        rcases List.mem_cons.mp hx with hx | hx
        · subst hx; simp [headerFields]
        · obtain ⟨q, _, rfl⟩ := List.mem_map.mp hx
          simp [safeFields]
      have hlen : ((headerFields.map String.data) :: (r :: rs).map safeFields).length ≤
          (renderRows ((headerFields.map String.data) :: (r :: rs).map safeFields)).length :=
        renderRows_length _
      rw [parseCsv]
      rw [parseRowsAux_render _ _ (by simpa using hlen) hne]
      simp only [Option.map_some', List.map_cons, Option.some.injEq,
        List.isEmpty_cons, Bool.false_eq_true, if_false, List.cons_eq_cons]
      refine ⟨rfl, hfield r, ?_⟩
      rw [List.map_map]
      apply List.map_congr_left
      intro q _
      simpa [Function.comp] using hfield q
  · rw [List.map_map]
    apply List.map_congr_left
    intro q _
    simp [Function.comp, hstrip]

end OrderExtractor
